import Mathlib

/-!
Shallow embedding of the incremental repository synchronization engine of
the Bitbucket/TruffleHog integration scripts (`bitbucketrepoCloner.py` with
its collaborators `createJIRA.py`, `send_to_slack.py` and
`th_collect_all_at_one_place.py`).

Pure data and control flow of the Python source are translated directly.
External effects (shelled-out git commands, HTTP requests, SQLite reads and
writes, Slack and JIRA calls) are made explicit:

* the provider's responses, the filesystem and the results of shelled-out
  commands are supplied through an environment record (`RepoEnv`, `ScanEnv`);
  the source calls the same branches endpoint of the provider several times
  inside one processing pass, which is modelled by a single stable value;
* every side effect the program performs is recorded as an `Effect` in the
  order the source performs it;
* a Python exception that would propagate out of a function is modelled with
  the `StepOutcome.raised` constructor, carrying the actions performed
  before the raise;
* the SQLite table `repo_updates` is modelled per repository as an
  `Option RecordRow`; `REPLACE INTO` is replay of the emitted `saveRecord`
  actions (`apply_saves`).
-/

/-- Directory where all repositories are cloned: `REPOS_DIR = 'all_repos'`. -/
def REPOS_DIR : String := "all_repos"

/-- `os.path.join` on the relative path fragments this program builds. -/
def pathJoin (a b : String) : String := a ++ "/" ++ b

/-- The `target` object of a branch in the `refs/branches` payload;
`target.get('hash')` may be absent, hence an `Option` field. -/
structure Target where
  hash : Option String
deriving DecidableEq

/-- One branch of the `refs/branches` payload: `branch['name']` and the
optional `'target'` object (`'target' in branch_info` may fail). -/
structure Branch where
  name : String
  target : Option Target
deriving DecidableEq

/-- One observable side effect of the program, in program order.
`scanFile p` records the dispatch `run_trufflehog_on_file(p, ...)` made by
`clone_or_update_repository`; the body of `run_trufflehog_on_file` is
modelled separately and emits the finer-grained actions below. -/
inductive Effect where
  | gitPull
  | gitClone (branch : String)
  | scanFile (path : String)
  | saveRecord (repo_name branch_name : String) (commit_hash : Option String)
  | writeRepoInfo (total : Nat) (names : List String)
  | reportSummary (total : Nat) (new_repos updated_repos : List String)
  | runTrufflehogBinary (path : String)
  | sendSlackMessage (text : String)
  | sendSlackFile (file repo_name : String)
  | createTicket (project_key : String)
  | logError (msg : String)
deriving DecidableEq

/-- Environment of one `clone_or_update_repository` call: what the outside
world (filesystem, SQLite, Bitbucket API, git subprocesses) would answer.
`pullExitCode` and `cloneExitCode` are the exit statuses of the
`os.system` git invocations; the source never inspects them, and the
embedding therefore never reads these fields — they exist so that theorems
can speak about runs in which the mirror operation failed. -/
structure RepoEnv where
  /-- `os.path.exists(repo_path)` at entry. -/
  localExists : Bool
  /-- what `get_last_commit_hash(repo_name)` returns from the DB. -/
  storedHash : Option String
  /-- HTTP status of the `refs/branches` request. -/
  branchesStatus : Nat
  /-- `response.json().get('values', [])` of the `refs/branches` request. -/
  branches : List Branch
  /-- exit status of `os.system('git -C "repo_path" pull')` (ignored by the source). -/
  pullExitCode : Nat
  /-- exit status of `os.system('git clone --branch ...')` (ignored by the source). -/
  cloneExitCode : Nat
  /-- `git -C repo_path diff --name-only <range>`: the modified-file lines on
  success, or `.error` when the command exits nonzero (in Python,
  `subprocess.check_output` raises `CalledProcessError`). -/
  gitDiff : String → Except Unit (List String)
  /-- `os.path.isfile(path)` under the mirror after the pull. -/
  isfile : String → Bool

/-- Result of one `clone_or_update_repository` call: either a normal return
(`updated` is the Python return value, `actions` the effects performed), or
an uncaught exception that propagates to the caller, with the effects
performed before the raise. -/
inductive StepOutcome where
  | ok (updated : Bool) (actions : List Effect)
  | raised (actions : List Effect)
deriving DecidableEq

/-- The actions performed by a step, whether it returned or raised. -/
def StepOutcome.actions : StepOutcome → List Effect
  | .ok _ a => a
  | .raised a => a

/-- The Python return value of the step (`False` when the call raised). -/
def StepOutcome.updated : StepOutcome → Bool
  | .ok u _ => u
  | .raised _ => false

/-- `branch_to_clone = 'master' if 'master' in branch_names else 'main' if
'main' in branch_names else branch_names[0]` as written inside
`clone_or_update_repository` (both occurrences are this expression; every
call site guards a nonempty list, so the `[0]` indexing is total there). -/
def select_branch (branch_names : List String) : String :=
  if branch_names.contains "master" then "master"
  else if branch_names.contains "main" then "main"
  else branch_names.headD ""

/-- The character-identical selection expression as written inside
`clone_repository` (spelled separately so that agreement between the
clone-fresh path and the update path is a theorem, not a modelling choice). -/
def select_branch_clone (branch_names : List String) : String :=
  if branch_names.contains "master" then "master"
  else if branch_names.contains "main" then "main"
  else branch_names.headD ""

/-- `clone_repository(repo_slug, repo_name)`: re-checks the directory,
re-fetches the branch list, and shells out `git clone --branch <sel>` when
everything resolves; returns `None` in all cases, so only its effects
matter. -/
def clone_repository (env : RepoEnv) : List Effect :=
  if env.localExists then []
  else if env.branchesStatus != 200 then []
  else if env.branches.isEmpty then []
  else
    [Effect.gitClone (select_branch_clone (env.branches.map (fun b => b.name)))]

/-- The git revision range `f'{last_commit_hash}..HEAD'`; Python renders a
missing hash (`None`) as the literal string `"None"`. -/
def diff_range : Option String → String
  | none => "None..HEAD"
  | some s => s ++ "..HEAD"

/-- `clone_or_update_repository(repo_slug, repo_name, project_repo_map)`.
Mirror-exists path: read the stored hash, fetch branches (non-200, empty
list, missing `target`, falsy hash each `return False`), skip when the
stored hash equals the remote head, otherwise `git pull` (exit ignored),
`git diff --name-only <stored>..HEAD` (a failing command raises), dispatch
a scan for every listed path that is a regular file, then save the record
and `return True`. No-mirror path: run `clone_repository`, re-fetch
branches, and when the selected branch has a `target`, save its (unchecked)
hash and `return True`. -/
def clone_or_update_repository (repo_name : String) (env : RepoEnv) : StepOutcome :=
  let repo_path := pathJoin REPOS_DIR repo_name
  if env.localExists then
    let last_commit_hash := env.storedHash
    if env.branchesStatus != 200 then .ok false []
    else if env.branches.isEmpty then .ok false []
    else
      let branch_names := env.branches.map (fun b => b.name)
      let branch_to_clone := select_branch branch_names
      match env.branches.find? (fun b => b.name == branch_to_clone) with
      | none => .ok false []
      | some branch_info =>
        match branch_info.target with
        | none => .ok false []
        | some target =>
          match target.hash with
          | none => .ok false []
          | some latest_commit_hash =>
            if latest_commit_hash == "" then .ok false []
            else if last_commit_hash == some latest_commit_hash then .ok false []
            else
              match env.gitDiff (diff_range last_commit_hash) with
              | .error _ => .raised [Effect.gitPull]
              | .ok modified_files =>
                let scans := modified_files.filterMap (fun f =>
                  let modified_file_path := pathJoin repo_path f
                  if env.isfile modified_file_path then
                    some (Effect.scanFile modified_file_path)
                  else none)
                .ok true (Effect.gitPull :: scans ++
                  [Effect.saveRecord repo_name branch_to_clone (some latest_commit_hash)])
  else
    let clone_actions := clone_repository env
    if env.branchesStatus != 200 then .ok false clone_actions
    else if env.branches.isEmpty then .ok false clone_actions
    else
      let branch_names := env.branches.map (fun b => b.name)
      let branch_to_clone := select_branch branch_names
      match env.branches.find? (fun b => b.name == branch_to_clone) with
      | none => .ok false clone_actions
      | some branch_info =>
        match branch_info.target with
        | none => .ok false clone_actions
        | some target =>
          .ok true (clone_actions ++
            [Effect.saveRecord repo_name branch_to_clone target.hash])

/-- One row of the SQLite table `repo_updates` for a repository (the
timestamp column is audit-only and omitted); `last_commit_hash` may be
NULL because the no-mirror path saves `target.get('hash')` unchecked. -/
structure RecordRow where
  branch_name : String
  last_commit_hash : Option String
deriving DecidableEq

/-- `get_last_commit_hash(repo_name)`: `result[0] if result else None` —
an absent row and a NULL hash both come back as `None`. -/
def get_last_commit_hash : Option RecordRow → Option String
  | none => none
  | some row => row.last_commit_hash

/-- Replay of the `save_commit_hash` effects in a trace against the stored
row of one repository (`REPLACE INTO` = wholesale upsert). -/
def apply_saves (store : Option RecordRow) (acts : List Effect) : Option RecordRow :=
  acts.foldl (fun st a =>
    match a with
    | Effect.saveRecord _ b h => some ⟨b, h⟩
    | _ => st) store

/-- One processing pass over a repository together with its State Store
row: run `clone_or_update_repository` with the stored hash the DB would
return, and apply the emitted saves to the row. -/
def run_step (repo_name : String) (env0 : RepoEnv) (store : Option RecordRow) :
    StepOutcome × Option RecordRow :=
  let out := clone_or_update_repository repo_name
    { env0 with storedHash := get_last_commit_hash store }
  (out, apply_saves store out.actions)

/-- `n` consecutive processing passes against an unchanged remote, threading
the State Store row; returns the final row and the outcome of each pass. -/
def iterate_runs (repo_name : String) (env0 : RepoEnv) :
    Nat → Option RecordRow → Option RecordRow × List StepOutcome
  | 0, store => (store, [])
  | n + 1, store =>
    let (out, store1) := run_step repo_name env0 store
    let (fin, outs) := iterate_runs repo_name env0 n store1
    (fin, out :: outs)

/-- One catalog entry as consumed by `main`: `repo['slug']`, `repo['name']`. -/
structure RepoMeta where
  slug : String
  name : String
deriving DecidableEq

/-- What one run of the orchestrator did. `processed` lists the repositories
whose `clone_or_update_repository` call ran to completion; `updated_repos`
is the accumulator of `main`; `aborted` is true when an uncaught exception
ended the `for repo in repos` loop early. -/
structure RunOutcome where
  processed : List String
  updated_repos : List String
  actions : List Effect
  aborted : Bool
deriving DecidableEq

/-- The `for repo in repos` loop of `main`: each repository is processed in
order; a `True` return appends to `updated_repos`; an uncaught exception
from `clone_or_update_repository` propagates and ends the loop (there is no
try/except around the body). -/
def main_loop : List RepoMeta → (String → RepoEnv) → RunOutcome
  | [], _ => ⟨[], [], [], false⟩
  | r :: rs, envOf =>
    match clone_or_update_repository r.name (envOf r.name) with
    | .raised acts => ⟨[], [], acts, true⟩
    | .ok u acts =>
      let rest := main_loop rs envOf
      ⟨r.name :: rest.processed,
       if u then r.name :: rest.updated_repos else rest.updated_repos,
       acts ++ rest.actions,
       rest.aborted⟩

/-- `main()` after configuration loading: bail out on an empty catalog,
write `repo_info.json` (`save_repo_info`), then run the loop. No summary of
any kind is emitted after the loop — `updated_repos` is built and dropped. -/
def bb_main (catalog : List RepoMeta) (envOf : String → RepoEnv) : RunOutcome :=
  if catalog.isEmpty then ⟨[], [], [], false⟩
  else
    let outcome := main_loop catalog envOf
    { outcome with
      actions := Effect.writeRepoInfo catalog.length (catalog.map (fun r => r.name))
        :: outcome.actions }

/-- Environment of one `run_trufflehog_on_file` call. -/
structure ScanEnv where
  /-- contents of the result file after the TruffleHog run, as its list of
  lines (the `re.MULTILINE` substitution and the blankness test both act
  line-wise on this content). -/
  thOutputLines : List String
  /-- issue key of the JIRA POST when it succeeds (`None` on HTTP failure). -/
  jiraCreateResult : Option String
  /-- whether `get_issue_details(issue_key)` returns details. -/
  issueDetailsOk : String → Bool
  /-- `JIRA_BASE_URL` from the process environment. -/
  jiraBaseUrl : String

/-- `re.sub(r'^File: all_repos/', 'File: ', output, flags=re.MULTILINE)`:
on each line, a leading `File: all_repos/` becomes `File: `. -/
def clean_trufflehog_output (lines : List String) : List String :=
  lines.map (fun l =>
    if l.startsWith "File: all_repos/" then "File: " ++ l.drop 16 else l)

/-- Whether `text.strip()` is falsy for the text with these lines: every
character of every line is whitespace (the joining newlines are whitespace
themselves). -/
def strip_is_empty (lines : List String) : Bool :=
  lines.all (fun l => l.data.all Char.isWhitespace)

/-- The Slack alert text for a repository with findings. -/
def alert_message (repo_name : String) : String :=
  ":warning: *Potential secrets* found in repository `" ++ repo_name ++
    "`.\nPlease review the attached results."

/-- `os.path.join(REPOS_DIR, f"{repo_name}_th_results.txt")`. -/
def result_file_for (repo_name : String) : String :=
  pathJoin REPOS_DIR (repo_name ++ "_th_results.txt")

/-- `project_repo_map.get(repo_name)` over the CSV-loaded mapping, modelled
as an association list keyed by repository name. -/
def get_project_key_from_csv (repo_name : String)
    (project_repo_map : List (String × String)) : Option String :=
  (project_repo_map.find? (fun p => p.1 == repo_name)).map (fun p => p.2)

/-- `create_jira_ticket(...)`: a missing project key logs an error and
returns `None` without any ticket request; otherwise the issue POST is made
and its result (an issue key, or `None` on HTTP failure) is returned. -/
def create_jira_ticket (repo_name : String)
    (project_repo_map : List (String × String)) (env : ScanEnv) :
    Option String × List Effect :=
  match get_project_key_from_csv repo_name project_repo_map with
  | none =>
    (none, [Effect.logError ("No project key found for repository " ++ repo_name)])
  | some project_key => (env.jiraCreateResult, [Effect.createTicket project_key])

/-- The Slack message announcing a created JIRA ticket. -/
def jira_created_message (env : ScanEnv) (issue_key repo_name : String) : String :=
  ":jira: *JIRA Ticket Created*: <" ++ env.jiraBaseUrl ++ "/browse/" ++ issue_key ++
    "|" ++ issue_key ++ "> for repository `" ++ repo_name ++ "`."

/-- `run_trufflehog_on_file(file_path, repo_name, project_repo_map)`: run
the scanner into the result file; when the cleaned output is non-blank,
send the alert message, attempt the JIRA ticket (announcing it on success
with resolvable details); in every case, finally send the result file. -/
def run_trufflehog_on_file (file_path repo_name : String)
    (project_repo_map : List (String × String)) (env : ScanEnv) : List Effect :=
  let result_file := result_file_for repo_name
  let cleaned := clean_trufflehog_output env.thOutputLines
  let mid :=
    if !strip_is_empty cleaned then
      let jira := create_jira_ticket repo_name project_repo_map env
      let announce :=
        match jira.1 with
        | some issue_key =>
          if env.issueDetailsOk issue_key then
            [Effect.sendSlackMessage (jira_created_message env issue_key repo_name)]
          else []
        | none => []
      Effect.sendSlackMessage (alert_message repo_name) :: jira.2 ++ announce
    else []
  Effect.runTrufflehogBinary file_path :: mid ++
    [Effect.sendSlackFile result_file repo_name]

/-- `send_summary_to_slack(total_repos, new_repos, updated_repos)` from the
collection script: posts one chat message carrying the totals and lists.
It is defined there but called from nowhere in the repository. -/
def send_summary_to_slack (total_repos : Nat)
    (new_repos updated_repos : List String) : List Effect :=
  [Effect.reportSummary total_repos new_repos updated_repos]

/-- Recognizer for a run-summary report in a trace. -/
def is_summary_action : Effect → Bool
  | .reportSummary _ _ _ => true
  | _ => false

/-- Recognizer for a scan dispatch in a trace. -/
def is_scan_action : Effect → Bool
  | .scanFile _ => true
  | _ => false

/-! ## Concrete environments used by counterexamples and witnesses -/

/-- A mirrored repository whose stored hash `"aaa"` differs from the remote
head `"bbb"`, whose `git pull` exits with status 1 (the pull failed), and
whose diff lists one surviving file. -/
def envPullFailed : RepoEnv :=
  { localExists := true, storedHash := some "aaa", branchesStatus := 200,
    branches := [⟨"master", some ⟨some "bbb"⟩⟩],
    pullExitCode := 1, cloneExitCode := 0,
    gitDiff := fun _ => .ok ["f.txt"], isfile := fun _ => true }

/-- A mirrored repository with no prior State Store record: git rejects the
revision range `None..HEAD` (the literal string `None` is not a commit), so
the diff command exits nonzero. -/
def envNoRecordMirror : RepoEnv :=
  { localExists := true, storedHash := none, branchesStatus := 200,
    branches := [⟨"master", some ⟨some "bbb"⟩⟩],
    pullExitCode := 0, cloneExitCode := 0,
    gitDiff := fun r => if r == "None..HEAD" then .error () else .ok ["a.txt"],
    isfile := fun _ => true }

/-- A mirrored repository whose stored hash equals the remote head `"bbb"`. -/
def envUnchanged : RepoEnv :=
  { localExists := true, storedHash := some "bbb", branchesStatus := 200,
    branches := [⟨"master", some ⟨some "bbb"⟩⟩],
    pullExitCode := 0, cloneExitCode := 0,
    gitDiff := fun _ => .ok [], isfile := fun _ => true }

/-- A repository with no local mirror whose selected branch has a `target`
object that carries no `hash` value. -/
def envNewNoHash : RepoEnv :=
  { localExists := false, storedHash := none, branchesStatus := 200,
    branches := [⟨"master", some ⟨none⟩⟩],
    pullExitCode := 0, cloneExitCode := 0,
    gitDiff := fun _ => .ok [], isfile := fun _ => false }

/-- A repository with no local mirror and a well-formed branch payload. -/
def envNewRepo : RepoEnv :=
  { localExists := false, storedHash := none, branchesStatus := 200,
    branches := [⟨"dev", some ⟨some "ccc"⟩⟩, ⟨"main", some ⟨some "ddd"⟩⟩],
    pullExitCode := 0, cloneExitCode := 0,
    gitDiff := fun _ => .ok [], isfile := fun _ => false }

/-- A mirrored repository advancing from `"aaa"` to `"bbb"` whose diff lists
a kept file and a deleted one; only the kept path is a regular file at HEAD. -/
def envUpdateWithDeletion : RepoEnv :=
  { localExists := true, storedHash := some "aaa", branchesStatus := 200,
    branches := [⟨"master", some ⟨some "bbb"⟩⟩],
    pullExitCode := 0, cloneExitCode := 0,
    gitDiff := fun _ => .ok ["kept.txt", "deleted.txt"],
    isfile := fun p => p == "all_repos/r10/kept.txt" }

/-- The batch of claim C2: the first repository raises out of the diff
computation, the second is a plain no-op repository. -/
def envOfBatch : String → RepoEnv :=
  fun n => if n == "r1" then envNoRecordMirror else envUnchanged

/-- A scan environment whose TruffleHog output is non-blank and whose JIRA
collaborator would succeed. -/
def scanEnvPositive : ScanEnv :=
  { thOutputLines := ["found"], jiraCreateResult := some "SEC-1",
    issueDetailsOk := fun _ => true, jiraBaseUrl := "https://jira.example" }

/-- A repository whose branch-list request fails with HTTP 500. -/
def envBadStatus : RepoEnv :=
  { localExists := true, storedHash := none, branchesStatus := 500,
    branches := [], pullExitCode := 0, cloneExitCode := 0,
    gitDiff := fun _ => .ok [], isfile := fun _ => false }

/-! ## Claim theorems -/

/-- C4: branch selection is deterministic and identical on the clone-fresh
and update paths — `master` if present, else `main` if present, else the
first branch in the provider's returned order — and on the lists
`["main","dev"]`, `["master","main"]`, `["feature-x"]` it selects `"main"`,
`"master"`, `"feature-x"` respectively. -/
theorem C4_branch_selection :
    (∀ ns : List String, select_branch ns = select_branch_clone ns) ∧
    (∀ ns : List String, ns.contains "master" = true → select_branch ns = "master") ∧
    (∀ ns : List String, ns.contains "master" = false → ns.contains "main" = true →
      select_branch ns = "main") ∧
    (∀ (n : String) (ns : List String), (n :: ns).contains "master" = false →
      (n :: ns).contains "main" = false → select_branch (n :: ns) = n) ∧
    select_branch ["main", "dev"] = "main" ∧
    select_branch ["master", "main"] = "master" ∧
    select_branch ["feature-x"] = "feature-x" := by
  refine ⟨fun ns => rfl, ?_, ?_, ?_, rfl, rfl, rfl⟩
  · intro ns h
    unfold select_branch
    rw [h]
    simp
  · intro ns h1 h2
    unfold select_branch
    rw [h1, h2]
    simp
  · intro n ns h1 h2
    unfold select_branch
    rw [h1, h2]
    simp

/-- Witness for C4 at concrete branch lists. -/
theorem C4_branch_selection_witness :
    select_branch ["dev", "master"] = "master" ∧
    select_branch ["dev", "main"] = "main" ∧
    select_branch ("feature-y" :: ["dev"]) = "feature-y" :=
  ⟨C4_branch_selection.2.1 ["dev", "master"] (by decide),
   C4_branch_selection.2.2.1 ["dev", "main"] (by decide) (by decide),
   C4_branch_selection.2.2.2.1 "feature-y" ["dev"] (by decide) (by decide)⟩

/-- C1 counterexample: in `envPullFailed` the `git pull` exits with status 1
(the mirror update failed — the source discards this exit status), yet the
run still persists the record pointing at the new remote head `"bbb"`. The
claim that a record is never persisted for a commit whose mirror update
failed is therefore false. -/
theorem C1_counterexample :
    envPullFailed.pullExitCode ≠ 0 ∧
    clone_or_update_repository "repo1" envPullFailed =
      .ok true [Effect.gitPull, Effect.scanFile "all_repos/repo1/f.txt",
                Effect.saveRecord "repo1" "master" (some "bbb")] :=
  ⟨by decide, rfl⟩

/-- C2 counterexample: in a two-repository batch whose first repository
raises out of the diff computation (`subprocess.check_output` on the
unresolvable range `None..HEAD`), the `for repo in repos` loop of `main`
aborts and the second repository is never processed — the loop does not
always continue to the next repository. -/
theorem C2_counterexample :
    (main_loop [⟨"s1", "r1"⟩, ⟨"s2", "r2"⟩] envOfBatch).aborted = true ∧
    "r2" ∉ (main_loop [⟨"s1", "r1"⟩, ⟨"s2", "r2"⟩] envOfBatch).processed :=
  ⟨rfl, by decide⟩

/-- C3 counterexample: for a mirrored repository with no prior record the
baseline interpolated into the diff range is the literal string `"None"`,
not an empty baseline; git rejects that revision, the diff raises, and the
run ends with only the pull performed — nothing is scanned and no record is
persisted, contradicting the claimed degradation to the full file listing
at HEAD followed by persistence. -/
theorem C3_counterexample :
    diff_range none = "None..HEAD" ∧
    clone_or_update_repository "r1" envNoRecordMirror = .raised [Effect.gitPull] :=
  ⟨rfl, rfl⟩

/-- C7 counterexample: a repository with no local mirror whose selected
branch has a `target` without a `hash` value is not skipped without
mutation — the no-mirror path saves the unchecked `target.get('hash')`,
writing a record with a NULL commit hash into the State Store. -/
theorem C7_counterexample :
    run_step "repo2" envNewNoHash none =
      (StepOutcome.ok true [Effect.gitClone "master",
        Effect.saveRecord "repo2" "master" none],
       some ⟨"master", none⟩) ∧
    some (⟨"master", none⟩ : RecordRow) ≠ (none : Option RecordRow) :=
  ⟨rfl, by decide⟩

/-- C9 counterexample: a concrete run of `main` emits zero run-summary
reports, not exactly one — `updated_repos` is accumulated and dropped, and
`send_summary_to_slack` is never called by the orchestrator. -/
theorem C9_counterexample :
    ((bb_main [⟨"s1", "r1"⟩] (fun _ => envUnchanged)).actions.countP
      is_summary_action) = 0 ∧
    ¬ ((bb_main [⟨"s1", "r1"⟩] (fun _ => envUnchanged)).actions.countP
      is_summary_action) = 1 :=
  ⟨rfl, by decide⟩

/-- C5: for a mirrored repository whose stored record carries exactly the
selected branch's current remote head commit, any number of consecutive
runs of the engine leaves the State Store row untouched and performs no
action at all (in particular no save and no scan dispatch) on every run. -/
theorem C5_unchanged_idempotent :
    ∀ (repo_name : String) (env0 : RepoEnv) (b h : String) (bi : Branch) (t : Target),
    env0.localExists = true →
    env0.branchesStatus = 200 →
    env0.branches.find?
      (fun br => br.name == select_branch (env0.branches.map (fun br => br.name))) = some bi →
    bi.target = some t →
    t.hash = some h →
    h ≠ "" →
    ∀ n : Nat, iterate_runs repo_name env0 n (some ⟨b, some h⟩) =
      (some ⟨b, some h⟩, List.replicate n (StepOutcome.ok false [])) := by
  intro repo_name env0 b h bi t hL hS hF hT hH hne
  have hEmpty : env0.branches.isEmpty = false := by
    cases hbr : env0.branches with
    | nil => rw [hbr] at hF; simp at hF
    | cons x xs => simp
  have hstep : run_step repo_name env0 (some ⟨b, some h⟩) =
      (StepOutcome.ok false [], some ⟨b, some h⟩) := by
    unfold run_step clone_or_update_repository
    simp only [get_last_commit_hash, hL, hS, hEmpty, hF, hT, hH]
    simp [hne, apply_saves, StepOutcome.actions]
  intro n
  induction n with
  | zero => rfl
  | succ k ih =>
    unfold iterate_runs
    rw [hstep]
    simp only [ih]
    rfl

/-- Witness for C5 at a concrete unchanged repository, run twice. -/
theorem C5_unchanged_idempotent_witness :
    iterate_runs "r5" envUnchanged 2 (some ⟨"master", some "bbb"⟩) =
      (some ⟨"master", some "bbb"⟩,
       List.replicate 2 (StepOutcome.ok false [])) :=
  C5_unchanged_idempotent "r5" envUnchanged "master" "bbb"
    ⟨"master", some ⟨some "bbb"⟩⟩ ⟨some "bbb"⟩ rfl rfl rfl rfl rfl
    (by decide) 2

/-- C6: a repository with no local mirror is processed as new — the mirror
operator clones at the selected branch, the record (identity, selected
branch, head commit) is persisted, the call reports `True`, and zero scans
are dispatched during that run. -/
theorem C6_new_repo_no_scan :
    ∀ (repo_name : String) (env : RepoEnv) (bi : Branch) (t : Target) (h : String),
    env.localExists = false →
    env.branchesStatus = 200 →
    env.branches.find?
      (fun b => b.name == select_branch (env.branches.map (fun b => b.name))) = some bi →
    bi.target = some t →
    t.hash = some h →
    clone_or_update_repository repo_name env =
      .ok true [Effect.gitClone (select_branch_clone (env.branches.map (fun b => b.name))),
                Effect.saveRecord repo_name
                  (select_branch (env.branches.map (fun b => b.name))) (some h)] ∧
    ((clone_or_update_repository repo_name env).actions.countP is_scan_action) = 0 := by
  intro repo_name env bi t h hL hS hF hT hH
  have hEmpty : env.branches.isEmpty = false := by
    cases hbr : env.branches with
    | nil => rw [hbr] at hF; simp at hF
    | cons x xs => simp
  have hout : clone_or_update_repository repo_name env =
      .ok true [Effect.gitClone (select_branch_clone (env.branches.map (fun b => b.name))),
                Effect.saveRecord repo_name
                  (select_branch (env.branches.map (fun b => b.name))) (some h)] := by
    unfold clone_or_update_repository clone_repository
    simp only [hL, hS, hEmpty, hF, hT, hH]
    simp
  refine ⟨hout, ?_⟩
  rw [hout]
  simp [StepOutcome.actions, is_scan_action]

/-- Witness for C6 at a concrete fresh repository. -/
theorem C6_new_repo_no_scan_witness :
    clone_or_update_repository "r6" envNewRepo =
      .ok true [Effect.gitClone "main", Effect.saveRecord "r6" "main" (some "ddd")] ∧
    ((clone_or_update_repository "r6" envNewRepo).actions.countP is_scan_action) = 0 :=
  C6_new_repo_no_scan "r6" envNewRepo ⟨"main", some ⟨some "ddd"⟩⟩ ⟨some "ddd"⟩ "ddd"
    rfl rfl rfl rfl rfl

/-- C10: on the updated path, a path from the diff output is dispatched to
the scanner only when it is a regular file under the mirror at HEAD
(`os.path.isfile`); a diff path that is not a regular file — e.g. a deleted
file — is silently skipped and never scanned. -/
theorem C10_deleted_files_not_scanned :
    ∀ (repo_name : String) (env : RepoEnv) (bi : Branch) (t : Target)
      (h : String) (files : List String),
    env.localExists = true →
    env.branchesStatus = 200 →
    env.branches.find?
      (fun b => b.name == select_branch (env.branches.map (fun b => b.name))) = some bi →
    bi.target = some t →
    t.hash = some h →
    h ≠ "" →
    (env.storedHash == some h) = false →
    env.gitDiff (diff_range env.storedHash) = .ok files →
    (∀ p, Effect.scanFile p ∈ (clone_or_update_repository repo_name env).actions →
      env.isfile p = true ∧
      ∃ f ∈ files, p = pathJoin (pathJoin REPOS_DIR repo_name) f) ∧
    (∀ f ∈ files, env.isfile (pathJoin (pathJoin REPOS_DIR repo_name) f) = false →
      Effect.scanFile (pathJoin (pathJoin REPOS_DIR repo_name) f) ∉
        (clone_or_update_repository repo_name env).actions) := by
  intro repo_name env bi t h files hL hS hF hT hH hne hStored hDiff
  have hEmpty : env.branches.isEmpty = false := by
    cases hbr : env.branches with
    | nil => rw [hbr] at hF; simp at hF
    | cons x xs => simp
  have hout : clone_or_update_repository repo_name env =
      .ok true (Effect.gitPull :: files.filterMap (fun f =>
          if env.isfile (pathJoin (pathJoin REPOS_DIR repo_name) f) then
            some (Effect.scanFile (pathJoin (pathJoin REPOS_DIR repo_name) f))
          else none) ++
        [Effect.saveRecord repo_name
          (select_branch (env.branches.map (fun b => b.name))) (some h)]) := by
    unfold clone_or_update_repository
    simp only [hL, hS, hEmpty, hF, hT, hH, hStored, hDiff]
    simp [hne]
  constructor
  · intro p hp
    rw [hout] at hp
    simp only [StepOutcome.actions] at hp
    rcases List.mem_cons.mp hp with hgit | hp2
    · exact absurd hgit (by simp)
    rcases List.mem_append.mp hp2 with hp3 | hsave
    · obtain ⟨f, hf, hfp⟩ := List.mem_filterMap.mp hp3
      by_cases hif : env.isfile (pathJoin (pathJoin REPOS_DIR repo_name) f) = true
      · rw [if_pos hif] at hfp
        have hpe : p = pathJoin (pathJoin REPOS_DIR repo_name) f := by
          injection hfp with h1
          injection h1 with h2
          exact h2.symm
        subst hpe
        exact ⟨hif, f, hf, rfl⟩
      · rw [if_neg hif] at hfp
        exact absurd hfp (by simp)
    · have := List.mem_singleton.mp hsave
      exact absurd this (by simp)
  · intro f hf hnot hmem
    rw [hout] at hmem
    simp only [StepOutcome.actions] at hmem
    rcases List.mem_cons.mp hmem with hgit | hm2
    · exact absurd hgit (by simp)
    rcases List.mem_append.mp hm2 with hm3 | hsave
    · obtain ⟨g, _, hgp⟩ := List.mem_filterMap.mp hm3
      by_cases hif : env.isfile (pathJoin (pathJoin REPOS_DIR repo_name) g) = true
      · rw [if_pos hif] at hgp
        have hpe : pathJoin (pathJoin REPOS_DIR repo_name) g =
            pathJoin (pathJoin REPOS_DIR repo_name) f := by
          injection hgp with h1
          injection h1
        rw [hpe] at hif
        rw [hif] at hnot
        exact absurd hnot (by simp)
      · rw [if_neg hif] at hgp
        exact absurd hgp (by simp)
    · have := List.mem_singleton.mp hsave
      exact absurd this (by simp)

/-- Witness for C10: in `envUpdateWithDeletion` the diff lists `kept.txt`
and `deleted.txt`; only the kept path (a regular file) may be scanned, and
the deleted path is never scanned. -/
theorem C10_deleted_files_not_scanned_witness :
    Effect.scanFile "all_repos/r10/deleted.txt" ∉
      (clone_or_update_repository "r10" envUpdateWithDeletion).actions :=
  (C10_deleted_files_not_scanned "r10" envUpdateWithDeletion
    ⟨"master", some ⟨some "bbb"⟩⟩ ⟨some "bbb"⟩ "bbb" ["kept.txt", "deleted.txt"]
    rfl rfl rfl rfl rfl (by decide) (by decide) rfl).2 "deleted.txt"
    (by decide) (by decide)

/-- C8: a non-empty scan result for a repository absent from the
project-key mapping still triggers the notification path — the alert
message and the result file are both delivered — while ticket creation is
skipped with a logged error and no ticket request is ever made. -/
theorem C8_missing_mapping_still_alerts :
    ∀ (file_path repo_name : String) (project_repo_map : List (String × String))
      (env : ScanEnv),
    strip_is_empty (clean_trufflehog_output env.thOutputLines) = false →
    get_project_key_from_csv repo_name project_repo_map = none →
    Effect.sendSlackMessage (alert_message repo_name) ∈
      run_trufflehog_on_file file_path repo_name project_repo_map env ∧
    Effect.sendSlackFile (result_file_for repo_name) repo_name ∈
      run_trufflehog_on_file file_path repo_name project_repo_map env ∧
    Effect.logError ("No project key found for repository " ++ repo_name) ∈
      run_trufflehog_on_file file_path repo_name project_repo_map env ∧
    (∀ project_key, Effect.createTicket project_key ∉
      run_trufflehog_on_file file_path repo_name project_repo_map env) := by
  intro file_path repo_name project_repo_map env hSecrets hKey
  have hb : (!strip_is_empty (clean_trufflehog_output env.thOutputLines)) = true := by
    simp [hSecrets]
  have hrun : run_trufflehog_on_file file_path repo_name project_repo_map env =
      [Effect.runTrufflehogBinary file_path,
       Effect.sendSlackMessage (alert_message repo_name),
       Effect.logError ("No project key found for repository " ++ repo_name),
       Effect.sendSlackFile (result_file_for repo_name) repo_name] := by
    unfold run_trufflehog_on_file create_jira_ticket
    rw [hKey]
    simp only [hb]
    simp
  rw [hrun]
  refine ⟨by simp, by simp, by simp, ?_⟩
  intro project_key hmem
  simp at hmem

/-- Witness for C8: a one-character finding on a repository missing from an
empty mapping table. -/
theorem C8_missing_mapping_still_alerts_witness :
    Effect.sendSlackMessage (alert_message "r8") ∈
      run_trufflehog_on_file "f.txt" "r8" [] scanEnvPositive ∧
    Effect.sendSlackFile (result_file_for "r8") "r8" ∈
      run_trufflehog_on_file "f.txt" "r8" [] scanEnvPositive ∧
    Effect.createTicket "SEC" ∉
      run_trufflehog_on_file "f.txt" "r8" [] scanEnvPositive := by
  have h := C8_missing_mapping_still_alerts "f.txt" "r8" [] scanEnvPositive
    (by decide) rfl
  exact ⟨h.1, h.2.1, h.2.2.2 "SEC"⟩

/-- Exhaustive shape of one `clone_or_update_repository` run: every run is a
no-effect `False` return, a fresh-clone attempt that saved nothing, a raise
after only the pull, an update run whose trace is pull–scans–save, or a
fresh-clone run whose trace is clone–save. -/
theorem step_shape (repo_name : String) (env : RepoEnv) :
    (∃ u, clone_or_update_repository repo_name env = .ok u []) ∨
    (env.localExists = false ∧
      clone_or_update_repository repo_name env =
        .ok false [Effect.gitClone (select_branch_clone (env.branches.map (fun b => b.name)))]) ∨
    (env.localExists = true ∧
      clone_or_update_repository repo_name env = .raised [Effect.gitPull]) ∨
    (∃ (files : List String) (hsh : String), env.localExists = true ∧
      clone_or_update_repository repo_name env =
        .ok true (Effect.gitPull :: files.filterMap (fun f =>
            if env.isfile (pathJoin (pathJoin REPOS_DIR repo_name) f) then
              some (Effect.scanFile (pathJoin (pathJoin REPOS_DIR repo_name) f))
            else none) ++
          [Effect.saveRecord repo_name
            (select_branch (env.branches.map (fun b => b.name))) (some hsh)])) ∨
    (∃ hsh : Option String, env.localExists = false ∧
      clone_or_update_repository repo_name env =
        .ok true ([Effect.gitClone (select_branch_clone (env.branches.map (fun b => b.name)))] ++
          [Effect.saveRecord repo_name
            (select_branch (env.branches.map (fun b => b.name))) hsh])) := by
  by_cases hS : env.branchesStatus = 200
  case neg =>
    have hS2 : (env.branchesStatus != 200) = true := by
      simpa using hS
    refine Or.inl ⟨false, ?_⟩
    unfold clone_or_update_repository clone_repository
    cases hL : env.localExists <;> simp [hL, hS2]
  case pos =>
  by_cases hE : env.branches.isEmpty = true
  case pos =>
    refine Or.inl ⟨false, ?_⟩
    unfold clone_or_update_repository clone_repository
    cases hL : env.localExists <;> simp [hL, hS, hE]
  case neg =>
  have hE2 : env.branches.isEmpty = false := by
    simpa using hE
  cases hF : env.branches.find?
      (fun b => b.name == select_branch (env.branches.map (fun b => b.name))) with
  | none =>
    cases hL : env.localExists with
    | true =>
      refine Or.inl ⟨false, ?_⟩
      unfold clone_or_update_repository clone_repository
      simp [hL, hS, hE2, hF]
    | false =>
      refine Or.inr (Or.inl ⟨rfl, ?_⟩)
      unfold clone_or_update_repository clone_repository
      simp [hL, hS, hE2, hF]
  | some bi =>
    cases hT : bi.target with
    | none =>
      cases hL : env.localExists with
      | true =>
        refine Or.inl ⟨false, ?_⟩
        unfold clone_or_update_repository clone_repository
        simp [hL, hS, hE2, hF, hT]
      | false =>
        refine Or.inr (Or.inl ⟨rfl, ?_⟩)
        unfold clone_or_update_repository clone_repository
        simp [hL, hS, hE2, hF, hT]
    | some t =>
      cases hL : env.localExists with
      | false =>
        refine Or.inr (Or.inr (Or.inr (Or.inr ⟨t.hash, rfl, ?_⟩)))
        unfold clone_or_update_repository clone_repository
        simp [hL, hS, hE2, hF, hT]
      | true =>
        cases hH : t.hash with
        | none =>
          refine Or.inl ⟨false, ?_⟩
          unfold clone_or_update_repository
          simp [hL, hS, hE2, hF, hT, hH]
        | some lat =>
          by_cases hBlank : (lat == "") = true
          case pos =>
            refine Or.inl ⟨false, ?_⟩
            unfold clone_or_update_repository
            simp [hL, hS, hE2, hF, hT, hH, hBlank]
          case neg =>
          have hBlank2 : (lat == "") = false := by
            simpa using hBlank
          by_cases hStored : (env.storedHash == some lat) = true
          case pos =>
            refine Or.inl ⟨false, ?_⟩
            unfold clone_or_update_repository
            simp [hL, hS, hE2, hF, hT, hH, hBlank2, hStored]
          case neg =>
          have hStored2 : (env.storedHash == some lat) = false := by
            simpa using hStored
          cases hD : env.gitDiff (diff_range env.storedHash) with
          | error e =>
            refine Or.inr (Or.inr (Or.inl ⟨rfl, ?_⟩))
            unfold clone_or_update_repository
            simp [hL, hS, hE2, hF, hT, hH, hBlank2, hStored2, hD]
          | ok files =>
            refine Or.inr (Or.inr (Or.inr (Or.inl ⟨files, lat, rfl, ?_⟩)))
            unfold clone_or_update_repository
            simp [hL, hS, hE2, hF, hT, hH, hBlank2, hStored2, hD]

/-- No run of `clone_or_update_repository` ever emits a run-summary report. -/
theorem step_effects_no_summary (repo_name : String) (env : RepoEnv) :
    ∀ a ∈ (clone_or_update_repository repo_name env).actions,
      is_summary_action a = false := by
  intro a ha
  rcases step_shape repo_name env with ⟨u, hv⟩ | ⟨_, hv⟩ | ⟨_, hv⟩ |
    ⟨files, hsh, _, hv⟩ | ⟨hsh, _, hv⟩ <;>
    rw [hv] at ha <;> simp only [StepOutcome.actions] at ha
  · exact absurd ha (by simp)
  · rw [List.mem_singleton.mp ha]; rfl
  · rw [List.mem_singleton.mp ha]; rfl
  · rcases List.mem_cons.mp ha with h | h
    · rw [h]; rfl
    rcases List.mem_append.mp h with h | h
    · obtain ⟨f, _, hfp⟩ := List.mem_filterMap.mp h
      by_cases hif : env.isfile (pathJoin (pathJoin REPOS_DIR repo_name) f) = true
      · rw [if_pos hif] at hfp
        injection hfp with h1
        rw [← h1]; rfl
      · rw [if_neg hif] at hfp
        exact absurd hfp (by simp)
    · rw [List.mem_singleton.mp h]; rfl
  · rcases List.mem_append.mp ha with h | h
    · rw [List.mem_singleton.mp h]; rfl
    · rw [List.mem_singleton.mp h]; rfl

/-- No trace of the orchestrator loop contains a run-summary report. -/
theorem main_loop_no_summary (repos : List RepoMeta) (envOf : String → RepoEnv) :
    ((main_loop repos envOf).actions.countP is_summary_action) = 0 := by
  induction repos with
  | nil => rfl
  | cons r rs ih =>
    cases hco : clone_or_update_repository r.name (envOf r.name) with
    | raised acts =>
      simp only [main_loop, hco]
      refine List.countP_eq_zero.mpr ?_
      intro a ha
      have h2 := step_effects_no_summary r.name (envOf r.name) a
        (by rw [hco]; exact ha)
      simp [h2]
    | ok u acts =>
      simp only [main_loop, hco]
      rw [List.countP_append]
      have h1 : acts.countP is_summary_action = 0 := by
        refine List.countP_eq_zero.mpr ?_
        intro a ha
        have h2 := step_effects_no_summary r.name (envOf r.name) a
          (by rw [hco]; exact ha)
        simp [h2]
      rw [h1, ih]

/-- C9 amended: the orchestrator reports no RunSummary at all — every run of
`main`, over any catalog, emits zero summary reports (it only accumulates
and drops `updated_repos`), while the `send_summary_to_slack` helper of the
collection script, which would emit exactly one, is never called. -/
theorem C9_amended :
    (∀ (catalog : List RepoMeta) (envOf : String → RepoEnv),
      ((bb_main catalog envOf).actions.countP is_summary_action) = 0) ∧
    (∀ (total : Nat) (new_repos updated_repos : List String),
      ((send_summary_to_slack total new_repos updated_repos).countP
        is_summary_action) = 1) := by
  constructor
  · intro catalog envOf
    by_cases hc : catalog.isEmpty = true
    · simp [bb_main, hc]
    · have hc2 : catalog.isEmpty = false := by simpa using hc
      simp only [bb_main, hc2]
      simp [List.countP_cons, is_summary_action, main_loop_no_summary catalog envOf]
  · intro total new_repos updated_repos
    rfl

/-- C1 amended: the record is persisted only as the final effect of a run,
after the mirror operation has been invoked (the pull heads the update
trace; the clone appears in the fresh trace) and after every scan dispatch;
a failing diff raises before any save (a raised trace is exactly the pull).
The mirror command's exit status, however, is never consulted, so the save
happens whether or not the pull/clone succeeded (see the counterexample). -/
theorem C1_amended :
    (∀ (repo_name : String) (env : RepoEnv) (u : Bool) (acts : List Effect)
       (b : String) (hsh : Option String),
      clone_or_update_repository repo_name env = .ok u acts →
      Effect.saveRecord repo_name b hsh ∈ acts →
      acts.getLast? = some (Effect.saveRecord repo_name b hsh) ∧
      (env.localExists = true → acts.head? = some Effect.gitPull) ∧
      (env.localExists = false →
        Effect.gitClone (select_branch_clone (env.branches.map (fun br => br.name))) ∈ acts)) ∧
    (∀ (repo_name : String) (env : RepoEnv) (racts : List Effect),
      clone_or_update_repository repo_name env = .raised racts →
      racts = [Effect.gitPull]) := by
  constructor
  · intro repo env u acts b hsh hco hmem
    rcases step_shape repo env with ⟨u2, hv⟩ | ⟨hL, hv⟩ | ⟨hL, hv⟩ |
      ⟨files, lat, hL, hv⟩ | ⟨hsh2, hL, hv⟩ <;> rw [hco] at hv
    · injection hv with h1 h2
      subst h2
      exact absurd hmem (by simp)
    · injection hv with h1 h2
      subst h2
      rcases List.mem_singleton.mp hmem with h3
      exact absurd h3 (by simp)
    · exact absurd hv (by simp)
    · injection hv with h1 h2
      subst h2
      have hbh : b = select_branch (env.branches.map (fun br => br.name)) ∧
          hsh = some lat := by
        rcases List.mem_cons.mp hmem with h | h
        · exact absurd h (by simp)
        rcases List.mem_append.mp h with h | h
        · obtain ⟨f, _, hfp⟩ := List.mem_filterMap.mp h
          by_cases hif : env.isfile (pathJoin (pathJoin REPOS_DIR repo) f) = true
          · rw [if_pos hif] at hfp
            exact absurd hfp (by simp)
          · rw [if_neg hif] at hfp
            exact absurd hfp (by simp)
        · have h2 := List.mem_singleton.mp h
          injection h2 with e1 e2 e3
          exact ⟨e2, e3⟩
      obtain ⟨hb, hh⟩ := hbh
      subst hb
      subst hh
      refine ⟨?_, fun _ => rfl, fun hfalse => ?_⟩
      · exact List.getLast?_concat _
      · rw [hfalse] at hL
        exact absurd hL (by simp)
    · injection hv with h1 h2
      subst h2
      have hbh : b = select_branch (env.branches.map (fun br => br.name)) ∧
          hsh = hsh2 := by
        rcases List.mem_append.mp hmem with h | h
        · have h3 := List.mem_singleton.mp h
          exact absurd h3 (by simp)
        · have h3 := List.mem_singleton.mp h
          injection h3 with e1 e2 e3
          exact ⟨e2, e3⟩
      obtain ⟨hb, hh⟩ := hbh
      subst hb
      subst hh
      refine ⟨List.getLast?_concat _, fun htrue => ?_, fun _ => by simp⟩
      rw [htrue] at hL
      exact absurd hL (by simp)
  · intro repo env racts hco
    rcases step_shape repo env with ⟨u2, hv⟩ | ⟨hL, hv⟩ | ⟨hL, hv⟩ |
      ⟨files, lat, hL, hv⟩ | ⟨hsh2, hL, hv⟩ <;> rw [hco] at hv
    · exact absurd hv (by simp)
    · exact absurd hv (by simp)
    · exact StepOutcome.raised.inj hv
    · exact absurd hv (by simp)
    · exact absurd hv (by simp)

/-- Witness for C1 amended at the failed-pull environment. -/
theorem C1_amended_witness :
    ([Effect.gitPull, Effect.scanFile "all_repos/repo1/f.txt",
      Effect.saveRecord "repo1" "master" (some "bbb")].getLast? =
        some (Effect.saveRecord "repo1" "master" (some "bbb"))) ∧
    ([Effect.gitPull, Effect.scanFile "all_repos/repo1/f.txt",
      Effect.saveRecord "repo1" "master" (some "bbb")].head? =
        some Effect.gitPull) := by
  have h := C1_amended.1 "repo1" envPullFailed true
    [Effect.gitPull, Effect.scanFile "all_repos/repo1/f.txt",
     Effect.saveRecord "repo1" "master" (some "bbb")] "master" (some "bbb")
    rfl (by decide)
  exact ⟨h.1, h.2.1 rfl⟩

/-- C2 amended: failures signalled by early `False` returns — a failing
branch-list request or a missing commit hash — are contained per repository,
and a repository whose call returns normally (whether `True` or `False`)
lets the loop continue to the rest of the batch unchanged; a raising
repository, by contrast, aborts the batch (see the counterexample). -/
theorem C2_amended :
    (∀ (repo_name : String) (env : RepoEnv), env.branchesStatus ≠ 200 →
      clone_or_update_repository repo_name env = .ok false []) ∧
    (∀ (repo_name : String) (env : RepoEnv) (bi : Branch) (t : Target),
      env.localExists = true →
      env.branchesStatus = 200 →
      env.branches.find?
        (fun b => b.name == select_branch (env.branches.map (fun b => b.name))) = some bi →
      bi.target = some t → t.hash = none →
      clone_or_update_repository repo_name env = .ok false []) ∧
    (∀ (r : RepoMeta) (rs : List RepoMeta) (envOf : String → RepoEnv)
       (u : Bool) (acts : List Effect),
      clone_or_update_repository r.name (envOf r.name) = .ok u acts →
      (main_loop (r :: rs) envOf).processed = r.name :: (main_loop rs envOf).processed ∧
      (main_loop (r :: rs) envOf).aborted = (main_loop rs envOf).aborted) := by
  refine ⟨?_, ?_, ?_⟩
  · intro repo_name env hS
    have hS2 : (env.branchesStatus != 200) = true := by
      simpa using hS
    unfold clone_or_update_repository clone_repository
    cases hL : env.localExists <;> simp [hL, hS2]
  · intro repo_name env bi t hL hS hF hT hH
    have hE2 : env.branches.isEmpty = false := by
      cases hbr : env.branches with
      | nil => rw [hbr] at hF; simp at hF
      | cons x xs => simp
    unfold clone_or_update_repository
    simp [hL, hS, hE2, hF, hT, hH]
  · intro r rs envOf u acts hco
    constructor <;> simp [main_loop, hco]

/-- Witness for C2 amended: a 500 branch-list response is contained, and a
normally-returning repository lets the loop process the rest of the batch. -/
theorem C2_amended_witness :
    clone_or_update_repository "rw2" envBadStatus = .ok false [] ∧
    (main_loop [⟨"s2", "r2"⟩] (fun _ => envUnchanged)).processed =
      "r2" :: (main_loop [] (fun _ => envUnchanged)).processed :=
  ⟨C2_amended.1 "rw2" envBadStatus (by decide),
   (C2_amended.2.2 ⟨"s2", "r2"⟩ [] (fun _ => envUnchanged) false [] rfl).1⟩

/-- C3 amended: a mirrored repository with no prior record is treated as
updated (the skip test compares `None` with the head hash and fails), but
the diff baseline is the literal string `None` — the code runs
`git diff None..HEAD`: if that command fails (as it does for the
unresolvable revision `None`) the run raises with only the pull performed,
and only if it somehow succeeded would the run scan its output and persist
the new head. -/
theorem C3_amended :
    ∀ (repo_name : String) (env : RepoEnv) (bi : Branch) (t : Target) (h : String),
    env.localExists = true →
    env.storedHash = none →
    env.branchesStatus = 200 →
    env.branches.find?
      (fun b => b.name == select_branch (env.branches.map (fun b => b.name))) = some bi →
    bi.target = some t → t.hash = some h → h ≠ "" →
    clone_or_update_repository repo_name env =
      (match env.gitDiff "None..HEAD" with
       | .error _ => .raised [Effect.gitPull]
       | .ok modified_files => .ok true (Effect.gitPull ::
           modified_files.filterMap (fun f =>
             if env.isfile (pathJoin (pathJoin REPOS_DIR repo_name) f) then
               some (Effect.scanFile (pathJoin (pathJoin REPOS_DIR repo_name) f))
             else none) ++
           [Effect.saveRecord repo_name
             (select_branch (env.branches.map (fun b => b.name))) (some h)])) := by
  intro repo_name env bi t h hL hStored hS hF hT hH hne
  have hE2 : env.branches.isEmpty = false := by
    cases hbr : env.branches with
    | nil => rw [hbr] at hF; simp at hF
    | cons x xs => simp
  unfold clone_or_update_repository
  simp only [hL, hS, hE2, hF, hT, hH, hStored]
  simp [hne, diff_range]

/-- Witness for C3 amended at the no-record environment, where the diff on
`None..HEAD` fails and the run raises after the pull. -/
theorem C3_amended_witness :
    clone_or_update_repository "r3" envNoRecordMirror = .raised [Effect.gitPull] :=
  C3_amended "r3" envNoRecordMirror ⟨"master", some ⟨some "bbb"⟩⟩ ⟨some "bbb"⟩ "bbb"
    rfl rfl rfl rfl rfl rfl (by decide)

/-- C7 amended: every classification-failure condition leaves the State
Store row exactly as it was — a non-200 branch list or an empty branch list
on either path, a missing `target` object on either path, and a missing or
empty hash value on the mirror-exists path; the one exception (see the
counterexample) is the no-mirror path with a `target` lacking a hash value,
which persists a NULL-hash record. -/
theorem C7_amended :
    ∀ (repo_name : String) (env : RepoEnv) (store : Option RecordRow),
    (env.branchesStatus ≠ 200 →
      run_step repo_name env store = (.ok false [], store)) ∧
    (env.branches = [] →
      run_step repo_name env store = (.ok false [], store)) ∧
    (∀ bi : Branch,
      env.localExists = true → env.branchesStatus = 200 →
      env.branches.find?
        (fun b => b.name == select_branch (env.branches.map (fun b => b.name))) = some bi →
      (bi.target = none ∨ bi.target = some ⟨none⟩ ∨ bi.target = some ⟨some ""⟩) →
      run_step repo_name env store = (.ok false [], store)) ∧
    (∀ bi : Branch,
      env.localExists = false → env.branchesStatus = 200 →
      env.branches.find?
        (fun b => b.name == select_branch (env.branches.map (fun b => b.name))) = some bi →
      bi.target = none →
      run_step repo_name env store =
        (.ok false [Effect.gitClone (select_branch_clone (env.branches.map (fun b => b.name)))],
         store)) := by
  intro repo_name env store
  refine ⟨?_, ?_, ?_, ?_⟩
  · intro hS
    have hS2 : (env.branchesStatus != 200) = true := by
      simpa using hS
    unfold run_step clone_or_update_repository clone_repository
    cases hL : env.localExists <;>
      simp [hL, hS2, apply_saves, StepOutcome.actions]
  · intro hbr
    unfold run_step clone_or_update_repository clone_repository
    cases hL : env.localExists <;>
      cases hS : (env.branchesStatus != 200) <;>
      simp [hL, hS, hbr, apply_saves, StepOutcome.actions]
  · intro bi hL hS hF hcase
    have hE2 : env.branches.isEmpty = false := by
      cases hbr : env.branches with
      | nil => rw [hbr] at hF; simp at hF
      | cons x xs => simp
    unfold run_step clone_or_update_repository
    rcases hcase with hT | hT | hT <;>
      simp [hL, hS, hE2, hF, hT, apply_saves, StepOutcome.actions]
  · intro bi hL hS hF hT
    have hE2 : env.branches.isEmpty = false := by
      cases hbr : env.branches with
      | nil => rw [hbr] at hF; simp at hF
      | cons x xs => simp
    unfold run_step clone_or_update_repository clone_repository
    simp [hL, hS, hE2, hF, hT, apply_saves, StepOutcome.actions]

/-- Witness for C7 amended: a 500 branch-list response leaves an absent
record absent. -/
theorem C7_amended_witness :
    run_step "rw7" envBadStatus none = (StepOutcome.ok false [], none) :=
  (C7_amended "rw7" envBadStatus none).1 (by decide)
